import Mathlib

/-!
Verification of the termwhat provider/session core.

This file gives a shallow embedding, in Lean 4, of the parts of the
termwhat source (src/repl.ts, src/config.ts, src/providers/*.ts) that the
specification's claims are about, and proves or refutes each claim.

Conventions of the embedding:
* JavaScript objects with optional fields become structures with `Option`
  fields; JavaScript truthiness tests (`!x`, `x || d`) are modelled
  explicitly (`""` and `0` are falsy).
* Network and file-system effects are modelled by passing the outcome of
  the effect (the parsed response, the thrown error, the file contents)
  as an explicit argument; a function that catches all exceptions and
  returns normally becomes a total Lean function over those outcomes.
* Thrown exceptions become `Except String` results.
* The JavaScript string primitives the REPL uses (`trim`, `slice(1)`,
  `split(/\s+/)`, `toLowerCase`, `join(' ')`, `startsWith('/')`) are
  re-implemented here by structural recursion on the character list so
  that every definition evaluates inside the kernel.
-/

/-! ## Data model: conversation messages (src/types.ts) -/

inductive Role where
  | system
  | user
  | assistant
deriving DecidableEq, Repr

structure ConversationMessage where
  role : Role
  content : String
deriving DecidableEq, Repr

/-! ## JavaScript truthiness and string helpers -/

/-- The value of `x || d` for an optional string `x`: the string when it is
present and non-empty (truthy), otherwise the default `d`. -/
def jsOrStr (x : Option String) (d : String) : String :=
  match x with
  | none => d
  | some s => if s = "" then d else s

/-- The value of `x || d` for an optional number `x`: the number when it is
present and non-zero (truthy), otherwise the default `d`. -/
def jsOrNat (x : Option Nat) (d : Nat) : Nat :=
  match x with
  | none => d
  | some n => if n = 0 then d else n

/-- JavaScript truthiness of an optional string: present and non-empty. -/
def strTruthy (x : Option String) : Bool :=
  match x with
  | none => false
  | some s => s ≠ ""

/-- The JavaScript `line.trim()`: whitespace stripped from both ends. -/
def jsTrim (s : String) : String :=
  String.mk (((s.data.dropWhile Char.isWhitespace).reverse.dropWhile
    Char.isWhitespace).reverse)

/-- The JavaScript `input.startsWith('/')`. -/
def jsStartsWithSlash (s : String) : Bool :=
  match s.data with
  | [] => false
  | c :: _ => c = '/'

/-- The JavaScript `command.slice(1)`: everything after the first character. -/
def jsSlice1 (s : String) : String := String.mk (s.data.drop 1)

/-- Maximal runs of non-whitespace characters, accumulated in reverse. -/
def runsAux : List Char → List Char → List (List Char)
  | [], cur => if cur = [] then [] else [cur.reverse]
  | c :: rest, cur =>
    if c.isWhitespace then
      (if cur = [] then runsAux rest [] else cur.reverse :: runsAux rest [])
    else runsAux rest (c :: cur)

/-- The JavaScript `s.split(/\s+/)`: maximal whitespace runs are
separators; a leading (resp. trailing) separator contributes a leading
(resp. trailing) empty token; splitting the empty string yields `[""]`. -/
def jsSplitWs (s : String) : List String :=
  match s.data with
  | [] => [""]
  | c :: _ =>
    (if c.isWhitespace then [""] else []) ++
    (runsAux s.data []).map String.mk ++
    (if (s.data.getLastD 'x').isWhitespace then [""] else [])

/-- The JavaScript `s.toLowerCase()` (ASCII, as the REPL command names
use). -/
def jsToLower (s : String) : String := String.mk (s.data.map Char.toLower)

/-- The JavaScript `args.join(' ')`. -/
def jsJoinSpace : List String → String
  | [] => ""
  | [x] => x
  | x :: rest => x ++ " " ++ jsJoinSpace rest

/-! ## Anthropic adapter: chat request construction
(src/providers/anthropic.ts, `AnthropicProvider.chat`)

The source splits the incoming history into system and non-system
messages, joins the system contents with a blank line, and sends the
non-system messages as the conversation body. -/

namespace AnthropicProvider

/-- The messages of the history whose role is `system`
(`messages.filter(m => m.role === 'system')`). -/
def systemMessages (messages : List ConversationMessage) : List ConversationMessage :=
  messages.filter (fun m => m.role == Role.system)

/-- The messages sent as the request body
(`messages.filter(m => m.role !== 'system')`). -/
def conversationMessages (messages : List ConversationMessage) : List ConversationMessage :=
  messages.filter (fun m => m.role != Role.system)

/-- The single system instruction
(`systemMessages.map(m => m.content).join('\n\n')`). -/
def systemPrompt (messages : List ConversationMessage) : String :=
  String.intercalate "\n\n" ((systemMessages messages).map (·.content))

/-- The `system` field actually placed on the request
(`system: systemPrompt || undefined`). -/
def requestSystemField (messages : List ConversationMessage) : Option String :=
  let s := systemPrompt messages
  if s = "" then none else some s

end AnthropicProvider

/-! ## Streaming chat: chunk accumulation loops

Each adapter's streaming branch folds over the incoming fragments,
accumulating `fullResponse` and invoking `onChunk`; the accumulator below
is the pair (fullResponse so far, chunks delivered to `onChunk` so far,
in delivery order). -/

/-- Concatenation of a list of strings in order. -/
def concatStrings : List String → String
  | [] => ""
  | s :: rest => s ++ concatStrings rest

namespace OpenAIProvider

/-- One iteration of the streaming loop of `OpenAIProvider.chat`:
`content = chunk.choices[0]?.delta?.content || ''`, and only a truthy
(non-empty) content is appended to `fullResponse` and delivered. The
incoming fragment is `none` when the delta carries no content field. -/
def chatStreamStep (acc : String × List String) (frag : Option String) :
    String × List String :=
  let content := frag.getD ""
  if content ≠ "" then (acc.1 ++ content, acc.2 ++ [content]) else acc

/-- The whole streaming loop: final `fullResponse` and the delivered chunks. -/
def chatStreamRun (frags : List (Option String)) : String × List String :=
  frags.foldl chatStreamStep ("", [])

end OpenAIProvider

namespace AnthropicProvider

/-- One iteration of the streaming loop of `AnthropicProvider.chat`: a
`content_block_delta`/`text_delta` event (`some text`) is appended to
`fullResponse` and delivered unconditionally; any other event kind
(`none`) is ignored. -/
def chatStreamStep (acc : String × List String) (frag : Option String) :
    String × List String :=
  match frag with
  | some text => (acc.1 ++ text, acc.2 ++ [text])
  | none => acc

/-- The whole streaming loop: final `fullResponse` and the delivered chunks. -/
def chatStreamRun (frags : List (Option String)) : String × List String :=
  frags.foldl chatStreamStep ("", [])

end AnthropicProvider

namespace OllamaProvider

/-- One iteration of the streaming loop of `OllamaProvider.chatWithLibrary`:
`content = chunk.message?.content || ''` is appended to `fullResponse`
unconditionally, but delivered only when truthy. -/
def libraryStreamStep (acc : String × List String) (frag : Option String) :
    String × List String :=
  let content := frag.getD ""
  (acc.1 ++ content, if content ≠ "" then acc.2 ++ [content] else acc.2)

/-- The whole library streaming loop. -/
def libraryStreamRun (frags : List (Option String)) : String × List String :=
  frags.foldl libraryStreamStep ("", [])

/-- One parsed line of the raw-fetch streaming loop of
`OllamaProvider.chatWithFetch`: `invalid` is a line `JSON.parse` rejects
(skipped), `valid c` a parsed object whose `message?.content` is `c`. -/
inductive FetchLine where
  | invalid
  | valid (content : Option String)
deriving DecidableEq, Repr

/-- One iteration of the raw-fetch streaming loop: an invalid line is
skipped; the content of a valid line is appended and delivered when
truthy. -/
def fetchStreamStep (acc : String × List String) (line : FetchLine) :
    String × List String :=
  match line with
  | .invalid => acc
  | .valid c =>
    let content := c.getD ""
    if content ≠ "" then (acc.1 ++ content, acc.2 ++ [content]) else acc

/-- The whole raw-fetch streaming loop. -/
def fetchStreamRun (lines : List FetchLine) : String × List String :=
  lines.foldl fetchStreamStep ("", [])

end OllamaProvider

/-! ## Health checks (src/providers/ollama.ts, anthropic.ts, openai.ts)

Every `healthCheck` wraps its network round-trip in a `try`/`catch` that
returns normally from both branches, so the embedding is a total function
from the outcome of the round-trip to a `HealthCheckResult`. -/

/-- A thrown JavaScript value: an `Error` carrying a message, or any
non-`Error` value. -/
inductive JsThrown where
  | error (msg : String)
  | nonError
deriving DecidableEq, Repr

/-- The text a `catch` block extracts from a thrown value
(`error instanceof Error ? error.message : 'Unknown error'`). -/
def jsErrMsg : JsThrown → String
  | .error msg => msg
  | .nonError => "Unknown error"

structure HealthCheckResult where
  healthy : Bool
  models : Option (List String)
  error : Option String
  responseTime : Option Nat
deriving DecidableEq, Repr

namespace OllamaProvider

/-- The possible outcomes of the `GET {host}/api/tags` round-trip inside
`OllamaProvider.healthCheck`: the fetch (or its 5-second abort) threw; the
response was not ok; `response.json()` threw; or a JSON body was parsed,
whose `models` field (a list of objects carrying names) may be absent. -/
inductive HealthOutcome where
  | fetchThrown (e : JsThrown)
  | httpError (status : Nat) (statusText : String)
  | jsonThrown (e : JsThrown)
  | okJson (models : Option (List String))
deriving DecidableEq, Repr

/-- `OllamaProvider.healthCheck` as a function of the round-trip outcome
and the elapsed time. -/
def healthCheck (o : HealthOutcome) (elapsedMs : Nat) : HealthCheckResult :=
  match o with
  | .fetchThrown e => ⟨false, none, some (jsErrMsg e), none⟩
  | .httpError status statusText =>
      ⟨false, none, some ("HTTP " ++ toString status ++ ": " ++ statusText), none⟩
  | .jsonThrown e => ⟨false, none, some (jsErrMsg e), none⟩
  | .okJson models => ⟨true, some (models.getD []), none, some elapsedMs⟩

/-- Whether the outcome is a failure of the round-trip. -/
def HealthOutcome.isFailure : HealthOutcome → Bool
  | .fetchThrown _ => true
  | .httpError _ _ => true
  | .jsonThrown _ => true
  | .okJson _ => false

end OllamaProvider

namespace AnthropicProvider

/-- The model list `AnthropicProvider` hard-codes (no models endpoint). -/
def knownModels : List String :=
  ["claude-3-5-sonnet-20241022", "claude-3-opus-20240229",
   "claude-3-sonnet-20240229", "claude-3-haiku-20240307"]

/-- The outcome of the minimal 1-token `messages.create` call inside
`AnthropicProvider.healthCheck`: it threw, or it returned. -/
inductive HealthOutcome where
  | thrown (e : JsThrown)
  | ok
deriving DecidableEq, Repr

/-- `AnthropicProvider.healthCheck` as a function of the call outcome. -/
def healthCheck (o : HealthOutcome) (elapsedMs : Nat) : HealthCheckResult :=
  match o with
  | .thrown e => ⟨false, none, some (jsErrMsg e), none⟩
  | .ok => ⟨true, some knownModels, none, some elapsedMs⟩

end AnthropicProvider

namespace OpenAIProvider

/-- The outcome of the `models.list` call inside
`OpenAIProvider.healthCheck`: it threw, or it yielded a list of model ids. -/
inductive HealthOutcome where
  | thrown (e : JsThrown)
  | ok (modelIds : List String)
deriving DecidableEq, Repr

/-- `OpenAIProvider.healthCheck` as a function of the call outcome. -/
def healthCheck (o : HealthOutcome) (elapsedMs : Nat) : HealthCheckResult :=
  match o with
  | .thrown e => ⟨false, none, some (jsErrMsg e), none⟩
  | .ok modelIds => ⟨true, some modelIds, none, some elapsedMs⟩

end OpenAIProvider

/-! ## Provider configurations and the factory
(src/types.ts, src/providers/factory.ts, and the adapter constructors) -/

/-- The tagged union of per-provider configurations (src/types.ts). -/
inductive ProviderConfig where
  | ollama (host : String) (model : String) (timeout : Nat)
  | openai (model : String) (timeout : Nat) (baseUrl : Option String)
      (organization : Option String)
  | anthropic (model : String) (timeout : Nat)
  | openrouter (model : String) (timeout : Nat) (siteUrl : Option String)
      (appName : Option String)
deriving DecidableEq, Repr

/-- The provider kind reported by `getProviderType()`. -/
inductive PType where
  | ollama
  | openai
  | anthropic
  | openrouter
deriving DecidableEq, Repr

/-- The process environment: variable name to value (absent = unset). -/
def Env : Type := List (String × String)

/-- Reading `process.env.NAME` and testing JavaScript truthiness: the
value when the variable is set to a non-empty string, otherwise `none`. -/
def envTruthy (env : Env) (name : String) : Option String :=
  match env.lookup name with
  | none => none
  | some v => if v = "" then none else some v

/-- The observable result of a successful adapter construction: the kind
reported by `getProviderType()` and the configuration the adapter stores. -/
structure ProviderHandle where
  ptype : PType
  cfg : ProviderConfig
deriving DecidableEq, Repr

namespace OllamaProvider

/-- `OllamaProvider`'s constructor: wraps `new Ollama(...)` in a
`try`/`catch` that only degrades to the fetch fallback, so construction
always succeeds. -/
def construct (cfg : ProviderConfig) : Except String ProviderHandle :=
  .ok ⟨.ollama, cfg⟩

end OllamaProvider

namespace OpenAIProvider

/-- `OpenAIProvider`'s constructor: reads `TERMWHAT_OPENAI_API_KEY` and
throws a configuration error when it is unset (or empty). -/
def construct (env : Env) (cfg : ProviderConfig) : Except String ProviderHandle :=
  match envTruthy env "TERMWHAT_OPENAI_API_KEY" with
  | none => .error "TERMWHAT_OPENAI_API_KEY environment variable is not set"
  | some _ => .ok ⟨.openai, cfg⟩

end OpenAIProvider

namespace AnthropicProvider

/-- `AnthropicProvider`'s constructor: reads `TERMWHAT_ANTHROPIC_API_KEY`
and throws a configuration error when it is unset (or empty). -/
def construct (env : Env) (cfg : ProviderConfig) : Except String ProviderHandle :=
  match envTruthy env "TERMWHAT_ANTHROPIC_API_KEY" with
  | none => .error "TERMWHAT_ANTHROPIC_API_KEY environment variable is not set"
  | some _ => .ok ⟨.anthropic, cfg⟩

end AnthropicProvider

namespace OpenRouterProvider

/-- `OpenRouterProvider`'s constructor. It first invokes
`super(openAIConfig)` — the `OpenAIProvider` constructor on the converted
configuration (kind `openai`, fixed base URL) — and only afterwards reads
`TERMWHAT_OPENROUTER_API_KEY` and rebuilds the client; `getProviderType()`
is overridden to report `openrouter`. -/
def construct (env : Env) (model : String) (timeout : Nat)
    (_siteUrl _appName : Option String) : Except String ProviderHandle := do
  let converted := ProviderConfig.openai model timeout
    (some "https://openrouter.ai/api/v1") none
  let base ← OpenAIProvider.construct env converted
  match envTruthy env "TERMWHAT_OPENROUTER_API_KEY" with
  | none => .error "TERMWHAT_OPENROUTER_API_KEY environment variable is not set"
  | some _ => .ok ⟨.openrouter, base.cfg⟩

end OpenRouterProvider

namespace AIProviderFactory

/-- `AIProviderFactory.enrichConfig`: overlays the recognized environment
overrides (`TERMWHAT_MODEL` for every kind, `TERMWHAT_OLLAMA_HOST` for the
local kind) on the explicit configuration. -/
def enrichConfig (env : Env) (cfg : ProviderConfig) : ProviderConfig :=
  match cfg with
  | .ollama host model timeout =>
      .ollama ((envTruthy env "TERMWHAT_OLLAMA_HOST").getD host)
        ((envTruthy env "TERMWHAT_MODEL").getD model) timeout
  | .openai model timeout baseUrl organization =>
      .openai ((envTruthy env "TERMWHAT_MODEL").getD model) timeout baseUrl organization
  | .anthropic model timeout =>
      .anthropic ((envTruthy env "TERMWHAT_MODEL").getD model) timeout
  | .openrouter model timeout siteUrl appName =>
      .openrouter ((envTruthy env "TERMWHAT_MODEL").getD model) timeout siteUrl appName

/-- `AIProviderFactory.create`: enriches the configuration, then
dispatches on its kind to the adapter constructor. -/
def create (env : Env) (cfg : ProviderConfig) : Except String ProviderHandle :=
  match enrichConfig env cfg with
  | .ollama host model timeout =>
      OllamaProvider.construct (.ollama host model timeout)
  | .openai model timeout baseUrl organization =>
      OpenAIProvider.construct env (.openai model timeout baseUrl organization)
  | .anthropic model timeout =>
      AnthropicProvider.construct env (.anthropic model timeout)
  | .openrouter model timeout siteUrl appName =>
      OpenRouterProvider.construct env model timeout siteUrl appName

/-- `AIProviderFactory.validateApiKeys`: the key check the doctor-style
consistency helper performs for a provider kind name. -/
def validateApiKeys (env : Env) (providerType : String) : Bool × Option String :=
  if providerType = "ollama" then (true, none)
  else if providerType = "openai" then
    match envTruthy env "TERMWHAT_OPENAI_API_KEY" with
    | none => (false, some "TERMWHAT_OPENAI_API_KEY environment variable is not set")
    | some _ => (true, none)
  else if providerType = "anthropic" then
    match envTruthy env "TERMWHAT_ANTHROPIC_API_KEY" with
    | none => (false, some "TERMWHAT_ANTHROPIC_API_KEY environment variable is not set")
    | some _ => (true, none)
  else if providerType = "openrouter" then
    match envTruthy env "TERMWHAT_OPENROUTER_API_KEY" with
    | none => (false, some "TERMWHAT_OPENROUTER_API_KEY environment variable is not set")
    | some _ => (true, none)
  else (false, some ("Unknown provider type: " ++ providerType))

end AIProviderFactory

/-! ## Configuration store (src/config.ts) -/

/-- The parsed JSON document of the persisted config file, as the fields
`loadConfig`, `isLegacyConfig` and `migrateLegacyConfig` inspect it.
Absent JSON fields are `none`. -/
structure ConfigDoc where
  currentProvider : Option String
  ollamaHost : Option String
  model : Option String
  timeout : Option Nat
  providers : Option (List (String × ProviderConfig))
deriving DecidableEq, Repr

/-- The built-in default local host, which depends on the Docker guess
(`process.env.DOCKER === 'true' || process.env.NODE_ENV === 'production'`). -/
def defaultHostFor (isDocker : Bool) : String :=
  if isDocker then "http://ollama:11434" else "http://localhost:11434"

/-- `isLegacyConfig`: no truthy `currentProvider`, and at least one of the
`ollamaHost` and `model` fields present (the legacy `timeout` field is NOT
part of the detection). -/
def isLegacyConfig (d : ConfigDoc) : Bool :=
  !strTruthy d.currentProvider && (d.ollamaHost.isSome || d.model.isSome)

/-- `migrateLegacyConfig`: builds the single-provider multi-backend
configuration from the legacy fields, falsy values replaced by the
built-in defaults. -/
def migrateLegacyConfig (d : ConfigDoc) (isDocker : Bool) : ConfigDoc where
  currentProvider := some "ollama"
  ollamaHost := none
  model := none
  timeout := none
  providers := some [("ollama",
    .ollama (jsOrStr d.ollamaHost (defaultHostFor isDocker))
      (jsOrStr d.model "llama3.2") (jsOrNat d.timeout 60000))]

/-- The default configuration `loadConfig` returns when the file is absent
or unparsable. -/
def defaultConfigDoc (isDocker : Bool) : ConfigDoc where
  currentProvider := some "ollama"
  ollamaHost := none
  model := none
  timeout := none
  providers := some [("ollama", .ollama (defaultHostFor isDocker) "llama3.2" 60000)]

/-- The state of the persisted config file as `loadConfig` encounters it:
absent, present but rejected by `JSON.parse`, or parsed to a document. -/
inductive ConfigFile where
  | absent
  | unparsable
  | parsed (d : ConfigDoc)
deriving DecidableEq, Repr

/-- `loadConfig` as a function of the file state: returns the resulting
configuration together with the document passed to `saveConfig` (only the
migration branch persists anything). -/
def loadConfig (file : ConfigFile) (isDocker : Bool) : ConfigDoc × Option ConfigDoc :=
  match file with
  | .absent => (defaultConfigDoc isDocker, none)
  | .unparsable => (defaultConfigDoc isDocker, none)
  | .parsed d =>
    if isLegacyConfig d then
      (migrateLegacyConfig d isDocker, some (migrateLegacyConfig d isDocker))
    else (d, none)

/-! ## The REPL session state machine (src/repl.ts) -/

/-- `MAX_HISTORY` (src/repl.ts line 10). -/
def MAX_HISTORY : Nat := 10

/-- The in-memory multi-provider application configuration
(`TermwhatConfig` of src/types.ts), providers as an association list. -/
structure TermwhatConfig where
  currentProvider : String
  providers : List (String × ProviderConfig)
deriving DecidableEq, Repr

/-- The merge `updateConfig({model})` performs on an adapter's stored
configuration. -/
def ProviderConfig.withModel : ProviderConfig → String → ProviderConfig
  | .ollama host _ timeout, m => .ollama host m timeout
  | .openai _ timeout baseUrl organization, m => .openai m timeout baseUrl organization
  | .anthropic _ timeout, m => .anthropic m timeout
  | .openrouter _ timeout siteUrl appName, m => .openrouter m timeout siteUrl appName

/-- The merge `updateConfig({host})` performs (meaningful for the local
kind, which is the only caller thanks to the `/host` guard). -/
def ProviderConfig.withHost : ProviderConfig → String → ProviderConfig
  | .ollama _ model timeout, h => .ollama h model timeout
  | c, _ => c

/-- Whether a configuration is of the local (ollama) kind. -/
def ProviderConfig.isOllama : ProviderConfig → Bool
  | .ollama _ _ _ => true
  | _ => false

/-- Assignment to a property of the providers object
(`providers[name] = v` for an existing key). -/
def assocSet : List (String × ProviderConfig) → String → ProviderConfig →
    List (String × ProviderConfig)
  | [], _, _ => []
  | (k, v) :: rest, key, newV =>
    if k = key then (k, newV) :: rest else (k, v) :: assocSet rest key newV

/-- The REPL session state: the live provider (its reported kind and
stored configuration), the in-memory app configuration, the current
provider name, the conversation history, and the log of configurations
passed to `saveConfig` (persistence effects, in order). -/
structure ReplState where
  providerType : PType
  providerCfg : ProviderConfig
  config : TermwhatConfig
  currentProviderName : String
  history : List ConversationMessage
  saved : List TermwhatConfig
deriving DecidableEq, Repr

/-- The trimming `while` loop of `handleQuestion`
(`while (history.length > MAX_HISTORY * 2 + 1) history.splice(1, 2)`),
with explicit structural fuel so it evaluates in the kernel; `splice(1,2)`
removes the two entries after the head. -/
def trimLoop : Nat → List ConversationMessage → List ConversationMessage
  | 0, h => h
  | fuel + 1, h =>
    if 2 * MAX_HISTORY + 1 < h.length then
      match h with
      | h0 :: _ :: _ :: rest => trimLoop fuel (h0 :: rest)
      | h' => h'
    else h

/-- The trim pass over a history: the loop runs at most `h.length` times
because every iteration removes two entries. -/
def trimHistory (h : List ConversationMessage) : List ConversationMessage :=
  trimLoop h.length h

/-- The message list `handleQuestion` passes to `provider.chat`: the user
message is appended, then the trim loop runs, then the chat call is made. -/
def chatPayload (question : String) (history : List ConversationMessage) :
    List ConversationMessage :=
  trimHistory (history ++ [⟨Role.user, question⟩])

/-- `handleQuestion` (src/repl.ts lines 229-267) as a history
transformer: push the user message, trim, call `chat` — on success
(`outcome = some response`) the raw response is pushed as an assistant
message, on a thrown error (`outcome = none`) the history is left as it
was after the trim. -/
def handleQuestion (question : String) (outcome : Option String)
    (history : List ConversationMessage) : List ConversationMessage :=
  match outcome with
  | some response => chatPayload question history ++ [⟨Role.assistant, response⟩]
  | none => chatPayload question history

/-- `handleCommand` (src/repl.ts lines 81-227) as a state transformer.
Commands that only print (`help`, `exit`, `quit`, `models`, `history`,
`doctor`, unknown) leave the state unchanged. `outcome` is the result of
the chat call a `/term` command may issue. -/
def handleCommand (env : Env) (command : String) (outcome : Option String)
    (s : ReplState) : ReplState :=
  let parts := jsSplitWs (jsSlice1 command)
  let cmd := jsToLower (parts.headD "")
  let args := parts.tail
  if cmd = "term" then
    match args with
    | [] => s
    | _ :: _ => { s with history := handleQuestion (jsJoinSpace args) outcome s.history }
  else if cmd = "provider" then
    match args with
    | [] => s
    | name :: _ =>
      if name = "list" then s
      else
        match s.config.providers.lookup name with
        | none => s
        | some newProviderConfig =>
          match AIProviderFactory.create env newProviderConfig with
          | .error _ => s
          | .ok newProvider =>
            let newConfig : TermwhatConfig := { s.config with currentProvider := name }
            { s with providerType := newProvider.ptype,
                     providerCfg := newProvider.cfg,
                     currentProviderName := name,
                     config := newConfig,
                     saved := s.saved ++ [newConfig] }
  else if cmd = "model" then
    match args with
    | [] => s
    | newModel :: _ =>
      match s.config.providers.lookup s.currentProviderName with
      | some entry =>
        let newConfig : TermwhatConfig := { s.config with
          providers := assocSet s.config.providers s.currentProviderName
            (entry.withModel newModel) }
        { s with providerCfg := s.providerCfg.withModel newModel,
                 config := newConfig, saved := s.saved ++ [newConfig] }
      | none => { s with providerCfg := s.providerCfg.withModel newModel }
  else if cmd = "host" then
    if s.providerType ≠ PType.ollama then s
    else
      match args with
      | [] => s
      | newHost :: _ =>
        match s.config.providers.lookup s.currentProviderName with
        | some entry =>
          if entry.isOllama then
            let newConfig : TermwhatConfig := { s.config with
              providers := assocSet s.config.providers s.currentProviderName
                (entry.withHost newHost) }
            { s with providerCfg := s.providerCfg.withHost newHost,
                     config := newConfig, saved := s.saved ++ [newConfig] }
          else { s with providerCfg := s.providerCfg.withHost newHost }
        | none => { s with providerCfg := s.providerCfg.withHost newHost }
  else if cmd = "clear" then { s with history := s.history.take 1 }
  else s

/-- The `rl.on('line', ...)` handler of `startRepl` (src/repl.ts lines
42-61): trim the line; ignore it when empty; dispatch a slash-prefixed
line to `handleCommand`; treat anything else as a question. -/
def handleLine (env : Env) (line : String) (outcome : Option String)
    (s : ReplState) : ReplState :=
  let input := jsTrim line
  if input = "" then s
  else if jsStartsWithSlash input then handleCommand env input outcome s
  else { s with history := handleQuestion input outcome s.history }

/-- The conversation history `startRepl` begins with: the system prompt
alone. -/
def startReplHistory (sysPrompt : String) : List ConversationMessage :=
  [⟨Role.system, sysPrompt⟩]

/-- The session state `startRepl` begins with. -/
def initialReplState (sysPrompt : String) (pt : PType) (pc : ProviderConfig)
    (config : TermwhatConfig) : ReplState :=
  ⟨pt, pc, config, config.currentProvider, startReplHistory sysPrompt, []⟩

/-- Running the REPL over a whole sequence of input lines, each paired
with the outcome of the chat call it triggers (if any). -/
def runRepl (env : Env) (inputs : List (String × Option String))
    (s : ReplState) : ReplState :=
  inputs.foldl (fun st p => handleLine env p.1 p.2 st) s

/-- N consecutive successful question turns (no slash commands), turn k
asking `q k` and receiving `a k`, starting from the initial history. -/
def runTurns (sysPrompt : String) (q a : Nat → String) : Nat → List ConversationMessage
  | 0 => startReplHistory sysPrompt
  | n + 1 => handleQuestion (q (n + 1)) (some (a (n + 1))) (runTurns sysPrompt q a n)

/-- The pair of history entries one successful turn k contributes. -/
def turnPair (q a : Nat → String) (k : Nat) : List ConversationMessage :=
  [⟨Role.user, q k⟩, ⟨Role.assistant, a k⟩]

/-- The history entries of turns `start, start+1, ..., start+n-1`, in
order. -/
def pairsRange (q a : Nat → String) (start : Nat) : Nat → List ConversationMessage
  | 0 => []
  | n + 1 => pairsRange q a start n ++ turnPair q a (start + n)


/-! ## Sample data used by concrete witnesses and counterexamples -/

/-- A concrete local provider configuration. -/
def sampleOllamaConfig : ProviderConfig :=
  .ollama "http://localhost:11434" "llama3.2" 60000

/-- A concrete single-provider application configuration. -/
def sampleAppConfig : TermwhatConfig := ⟨"ollama", [("ollama", sampleOllamaConfig)]⟩

/-- A concrete freshly started session state. -/
def sampleInitState : ReplState :=
  initialReplState "S" PType.ollama sampleOllamaConfig sampleAppConfig

/-- A concrete two-provider application configuration (one local entry,
one cloud entry). -/
def cloudAppConfig : TermwhatConfig :=
  ⟨"local", [("local", .ollama "http://h:11434" "llama3.2" 60000),
             ("cloud", .anthropic "claude-3-5-sonnet-20241022" 60000)]⟩

/-- A concrete mid-session state: local provider live, one completed
question turn in the history. -/
def midSessionState : ReplState :=
  ⟨PType.ollama, .ollama "http://h:11434" "llama3.2" 60000, cloudAppConfig, "local",
   [⟨Role.system, "S"⟩, ⟨Role.user, "u"⟩, ⟨Role.assistant, "r"⟩], []⟩

/-! ## Helper lemmas: string concatenation and streaming loops -/

theorem concatStrings_append (l₁ l₂ : List String) :
    concatStrings (l₁ ++ l₂) = concatStrings l₁ ++ concatStrings l₂ := by
  induction l₁ with
  | nil => simp [concatStrings]
  | cons s rest ih => simp [concatStrings, ih, String.append_assoc]

theorem concatStrings_singleton (s : String) : concatStrings [s] = s := by
  simp [concatStrings]

/-- The streaming-loop invariant: if the accumulated response equals the
concatenation of delivered chunks, the OpenAI step preserves that. -/
theorem openai_stream_inv (frags : List (Option String)) (acc : String × List String)
    (h : acc.1 = concatStrings acc.2) :
    (frags.foldl OpenAIProvider.chatStreamStep acc).1 =
      concatStrings (frags.foldl OpenAIProvider.chatStreamStep acc).2 := by
  induction frags generalizing acc with
  | nil => simpa using h
  | cons frag rest ih =>
    apply ih
    unfold OpenAIProvider.chatStreamStep
    by_cases hc : frag.getD "" ≠ "" <;>
      simp [hc, h, concatStrings_append, concatStrings_singleton]

theorem anthropic_stream_inv (frags : List (Option String)) (acc : String × List String)
    (h : acc.1 = concatStrings acc.2) :
    (frags.foldl AnthropicProvider.chatStreamStep acc).1 =
      concatStrings (frags.foldl AnthropicProvider.chatStreamStep acc).2 := by
  induction frags generalizing acc with
  | nil => simpa using h
  | cons frag rest ih =>
    apply ih
    unfold AnthropicProvider.chatStreamStep
    cases frag <;> simp [h, concatStrings_append, concatStrings_singleton]

theorem ollama_library_stream_inv (frags : List (Option String)) (acc : String × List String)
    (h : acc.1 = concatStrings acc.2) :
    (frags.foldl OllamaProvider.libraryStreamStep acc).1 =
      concatStrings (frags.foldl OllamaProvider.libraryStreamStep acc).2 := by
  induction frags generalizing acc with
  | nil => simpa using h
  | cons frag rest ih =>
    apply ih
    unfold OllamaProvider.libraryStreamStep
    by_cases hc : frag.getD "" ≠ "" <;>
      simp_all [concatStrings_append, concatStrings_singleton]

theorem ollama_fetch_stream_inv (lines : List OllamaProvider.FetchLine)
    (acc : String × List String) (h : acc.1 = concatStrings acc.2) :
    (lines.foldl OllamaProvider.fetchStreamStep acc).1 =
      concatStrings (lines.foldl OllamaProvider.fetchStreamStep acc).2 := by
  induction lines generalizing acc with
  | nil => simpa using h
  | cons line rest ih =>
    apply ih
    unfold OllamaProvider.fetchStreamStep
    cases line with
    | invalid => exact h
    | valid c =>
      by_cases hc : c.getD "" ≠ "" <;>
        simp [hc, h, concatStrings_append, concatStrings_singleton]

/-! ## Claim theorems C8 and C9 -/

/-- C8. For every ordered message history passed to the Anthropic adapter's
`chat`, all `system`-role messages are removed from the conversation body,
their contents are concatenated in order (joined with blank lines) into the
single system instruction of the request, and the conversation body sent
upstream is exactly the `user` and `assistant` messages of the input in
their original order. -/
theorem anthropic_chat_extracts_system (messages : List ConversationMessage) :
    (∀ m ∈ AnthropicProvider.conversationMessages messages, m.role ≠ Role.system)
    ∧ AnthropicProvider.conversationMessages messages =
        messages.filter (fun m => m.role == Role.user || m.role == Role.assistant)
    ∧ AnthropicProvider.systemPrompt messages =
        String.intercalate "\n\n"
          ((messages.filter (fun m => m.role == Role.system)).map (·.content))
    ∧ (AnthropicProvider.systemPrompt messages ≠ "" →
        AnthropicProvider.requestSystemField messages =
          some (AnthropicProvider.systemPrompt messages)) := by
  refine ⟨?_, ?_, ?_, ?_⟩
  · intro m hm
    have := List.of_mem_filter hm
    simpa [bne_iff_ne] using this
  · unfold AnthropicProvider.conversationMessages
    apply List.filter_congr
    intro m _
    cases m.role <;> decide
  · rfl
  · intro h
    unfold AnthropicProvider.requestSystemField
    simp [h]

/-- Witness for C8 at a concrete history with one system, one user and one
assistant message. -/
theorem anthropic_chat_extracts_system_witness :
    AnthropicProvider.conversationMessages
        [⟨Role.system, "S"⟩, ⟨Role.user, "u"⟩, ⟨Role.assistant, "a"⟩] =
      [⟨Role.user, "u"⟩, ⟨Role.assistant, "a"⟩]
    ∧ AnthropicProvider.requestSystemField
        [⟨Role.system, "S"⟩, ⟨Role.user, "u"⟩, ⟨Role.assistant, "a"⟩] = some "S" := by
  have h := anthropic_chat_extracts_system
    [⟨Role.system, "S"⟩, ⟨Role.user, "u"⟩, ⟨Role.assistant, "a"⟩]
  refine ⟨by rw [h.2.1]; decide, ?_⟩
  have hs := h.2.2.2 (by decide)
  rw [hs]
  decide

/-- C9. For every adapter and every sequence of incremental fragments
produced by the backend stream, the streaming `chat` loop returns a final
string equal to the concatenation, in delivery order, of exactly the
chunks delivered to the `onChunk` callback. -/
theorem chat_stream_returns_concatenation_of_chunks
    (frags : List (Option String)) (lines : List OllamaProvider.FetchLine) :
    (OpenAIProvider.chatStreamRun frags).1 =
        concatStrings (OpenAIProvider.chatStreamRun frags).2
    ∧ (AnthropicProvider.chatStreamRun frags).1 =
        concatStrings (AnthropicProvider.chatStreamRun frags).2
    ∧ (OllamaProvider.libraryStreamRun frags).1 =
        concatStrings (OllamaProvider.libraryStreamRun frags).2
    ∧ (OllamaProvider.fetchStreamRun lines).1 =
        concatStrings (OllamaProvider.fetchStreamRun lines).2 :=
  ⟨openai_stream_inv frags ("", []) rfl,
   anthropic_stream_inv frags ("", []) rfl,
   ollama_library_stream_inv frags ("", []) rfl,
   ollama_fetch_stream_inv lines ("", []) rfl⟩

/-! ## Claim theorems C7 and C3 -/

/-- C7 (amended). Every adapter's `healthCheck` is a total function of the
round-trip outcome (both `try` branches return normally, so it never
throws): every failing outcome is converted to a result with
`healthy = false` and the `error` field set — to `HTTP <status>: <text>`
(always non-empty) for a non-2xx response and to the thrown error's
message (or `Unknown error` for a non-`Error` value) for a thrown
exception — and every successful outcome yields `healthy = true` with no
error. -/
theorem health_check_never_throws_and_classifies
    (o₁ : OllamaProvider.HealthOutcome) (t : Nat) :
    (o₁.isFailure →
      (OllamaProvider.healthCheck o₁ t).healthy = false
      ∧ (OllamaProvider.healthCheck o₁ t).error.isSome)
    ∧ (¬ o₁.isFailure → (OllamaProvider.healthCheck o₁ t).healthy = true
        ∧ (OllamaProvider.healthCheck o₁ t).error = none)
    ∧ (∀ status statusText,
        (OllamaProvider.healthCheck (.httpError status statusText) t).error.getD "" ≠ "")
    ∧ (∀ e, (OllamaProvider.healthCheck (.fetchThrown e) t).error = some (jsErrMsg e))
    ∧ (∀ e, (AnthropicProvider.healthCheck (.thrown e) t).healthy = false
        ∧ (AnthropicProvider.healthCheck (.thrown e) t).error = some (jsErrMsg e))
    ∧ ((AnthropicProvider.healthCheck .ok t).healthy = true
        ∧ (AnthropicProvider.healthCheck .ok t).error = none)
    ∧ (∀ e, (OpenAIProvider.healthCheck (.thrown e) t).healthy = false
        ∧ (OpenAIProvider.healthCheck (.thrown e) t).error = some (jsErrMsg e))
    ∧ (∀ ids, (OpenAIProvider.healthCheck (.ok ids) t).healthy = true
        ∧ (OpenAIProvider.healthCheck (.ok ids) t).error = none) := by
  refine ⟨?_, ?_, ?_, ?_, ?_, ?_, ?_, ?_⟩
  · intro hf
    cases o₁ <;> simp_all [OllamaProvider.healthCheck, OllamaProvider.HealthOutcome.isFailure]
  · intro hf
    cases o₁ <;> simp_all [OllamaProvider.healthCheck, OllamaProvider.HealthOutcome.isFailure]
  · intro status statusText
    show ¬("HTTP " ++ toString status ++ ": " ++ statusText) = ""
    intro h
    have hlen := congrArg String.length h
    simp [String.length_append] at hlen
    exact absurd hlen.1.2 (by decide)
  · intro e
    rfl
  · intro e
    exact ⟨rfl, rfl⟩
  · exact ⟨rfl, rfl⟩
  · intro e
    exact ⟨rfl, rfl⟩
  · intro ids
    exact ⟨rfl, rfl⟩

/-- Witness for C7 at concrete outcomes: an unreachable-host throw for the
local adapter, a successful round-trip for the cloud adapter. -/
theorem health_check_never_throws_and_classifies_witness :
    (OllamaProvider.healthCheck (.fetchThrown (.error "fetch failed")) 3).healthy = false
    ∧ (OllamaProvider.healthCheck (.fetchThrown (.error "fetch failed")) 3).error.isSome
    ∧ (AnthropicProvider.healthCheck .ok 3).healthy = true := by
  have h := health_check_never_throws_and_classifies
    (.fetchThrown (.error "fetch failed")) 3
  have h₁ := h.1 (by decide)
  exact ⟨h₁.1, h₁.2, h.2.2.2.2.2.1.1⟩

/-- C7 counterexample to the claim as stated: an exception whose `Error`
carries an empty message is converted to `healthy = false` with an EMPTY
error text, not a non-empty one. -/
theorem health_check_empty_error_counterexample :
    (OllamaProvider.healthCheck (.fetchThrown (.error "")) 0).healthy = false
    ∧ (OllamaProvider.healthCheck (.fetchThrown (.error "")) 0).error = some "" := by
  exact ⟨rfl, rfl⟩

/-- C3. The code contradicts the claim (and its own `validateApiKeys`
helper and README): constructing the OpenRouter adapter first runs the
OpenAI constructor via `super(...)`, so with `TERMWHAT_OPENROUTER_API_KEY`
set but `TERMWHAT_OPENAI_API_KEY` unset, `AIProviderFactory.create`
throws the OpenAI key error even though `validateApiKeys` reports the
OpenRouter configuration valid. The OpenAI and Anthropic adapters do
behave as claimed: each reads exactly its own variable. -/
theorem openrouter_construction_requires_openai_key :
    AIProviderFactory.create [("TERMWHAT_OPENROUTER_API_KEY", "sk-or-test")]
        (ProviderConfig.openrouter "anthropic/claude-3.5-sonnet" 60000 none none) =
      .error "TERMWHAT_OPENAI_API_KEY environment variable is not set"
    ∧ AIProviderFactory.validateApiKeys [("TERMWHAT_OPENROUTER_API_KEY", "sk-or-test")]
        "openrouter" = (true, none)
    ∧ AIProviderFactory.create [("TERMWHAT_ANTHROPIC_API_KEY", "sk-ant-test")]
        (ProviderConfig.anthropic "claude-3-5-sonnet-20241022" 60000) =
      .ok ⟨.anthropic, .anthropic "claude-3-5-sonnet-20241022" 60000⟩
    ∧ AIProviderFactory.create [("TERMWHAT_ANTHROPIC_API_KEY", "sk-ant-test")]
        (ProviderConfig.openai "gpt-4" 60000 none none) =
      .error "TERMWHAT_OPENAI_API_KEY environment variable is not set"
    ∧ AIProviderFactory.create [("TERMWHAT_OPENAI_API_KEY", "sk-test")]
        (ProviderConfig.openai "gpt-4" 60000 none none) =
      .ok ⟨.openai, .openai "gpt-4" 60000 none none⟩
    ∧ AIProviderFactory.create
        [("TERMWHAT_OPENROUTER_API_KEY", "sk-or-test"),
         ("TERMWHAT_OPENAI_API_KEY", "sk-test")]
        (ProviderConfig.openrouter "anthropic/claude-3.5-sonnet" 60000 none none) =
      .ok ⟨.openrouter, .openai "anthropic/claude-3.5-sonnet" 60000
            (some "https://openrouter.ai/api/v1") none⟩ := by
  refine ⟨rfl, rfl, rfl, rfl, rfl, rfl⟩

/-! ## Claim theorems C2 -/

/-- C2 counterexample to the claim as stated: a persisted document with no
`currentProvider` and only the legacy timeout field (`{"timeout": 5000}`)
is NOT detected as legacy — `loadConfig` returns it untouched (no
provider entry at all) and persists nothing, instead of migrating it to a
single local provider entry. -/
theorem legacy_timeout_only_not_migrated :
    (loadConfig (.parsed ⟨none, none, none, some 5000, none⟩) false).1.providers = none
    ∧ (loadConfig (.parsed ⟨none, none, none, some 5000, none⟩) false).2 = none := by
  exact ⟨rfl, rfl⟩

/-- C2 (amended). For every persisted document with no `currentProvider`
and at least one of the legacy `ollamaHost`/`model` fields, `loadConfig`
returns the migrated configuration: exactly one provider entry, of the
local (ollama) kind, whose host, model and timeout are the truthy legacy
values (falsy or absent ones replaced by the built-in defaults); that
migrated form is persisted, and a second `loadConfig` on the migrated
document is a pure passthrough that persists nothing. -/
theorem legacy_config_migration (d : ConfigDoc) (isDocker : Bool)
    (hcp : d.currentProvider = none)
    (hleg : d.ollamaHost.isSome ∨ d.model.isSome) :
    (loadConfig (.parsed d) isDocker).1 = migrateLegacyConfig d isDocker
    ∧ (loadConfig (.parsed d) isDocker).1.providers = some [("ollama",
        .ollama (jsOrStr d.ollamaHost (defaultHostFor isDocker))
          (jsOrStr d.model "llama3.2") (jsOrNat d.timeout 60000))]
    ∧ (loadConfig (.parsed d) isDocker).2 = some (loadConfig (.parsed d) isDocker).1
    ∧ loadConfig (.parsed (loadConfig (.parsed d) isDocker).1) isDocker =
        ((loadConfig (.parsed d) isDocker).1, none) := by
  have hlegacy : isLegacyConfig d = true := by
    unfold isLegacyConfig strTruthy
    rw [hcp]
    rcases hleg with h | h <;> simp [h]
  have hload : loadConfig (.parsed d) isDocker =
      (migrateLegacyConfig d isDocker, some (migrateLegacyConfig d isDocker)) := by
    simp [loadConfig, hlegacy]
  have hnotlegacy : isLegacyConfig (migrateLegacyConfig d isDocker) = false := by
    unfold isLegacyConfig migrateLegacyConfig strTruthy
    simp
  refine ⟨by rw [hload], by rw [hload]; rfl, by rw [hload], ?_⟩
  rw [hload]
  simp [loadConfig, hnotlegacy]

/-- Witness for C2 at the concrete legacy document
`{"ollamaHost": "http://192.168.1.7:11434"}`. -/
theorem legacy_config_migration_witness :
    (loadConfig (.parsed ⟨none, some "http://192.168.1.7:11434", none, none, none⟩)
        false).1.providers =
      some [("ollama", .ollama "http://192.168.1.7:11434" "llama3.2" 60000)]
    ∧ loadConfig (.parsed (loadConfig
        (.parsed ⟨none, some "http://192.168.1.7:11434", none, none, none⟩) false).1)
        false =
      ((loadConfig (.parsed ⟨none, some "http://192.168.1.7:11434", none, none, none⟩)
          false).1, none) := by
  have h := legacy_config_migration
    ⟨none, some "http://192.168.1.7:11434", none, none, none⟩ false rfl (.inl rfl)
  exact ⟨h.2.1, h.2.2.2⟩

/-! ## Helper lemmas: the history trim loop -/

theorem trimLoop_of_le (fuel : Nat) (h : List ConversationMessage)
    (hle : h.length ≤ 2 * MAX_HISTORY + 1) : trimLoop fuel h = h := by
  cases fuel with
  | zero => rfl
  | succ n => simp [trimLoop, Nat.not_lt.mpr hle]

theorem trimLoop_step (fuel : Nat) (h0 a b : ConversationMessage)
    (rest : List ConversationMessage)
    (hgt : 2 * MAX_HISTORY + 1 < (h0 :: a :: b :: rest).length) :
    trimLoop (fuel + 1) (h0 :: a :: b :: rest) = trimLoop fuel (h0 :: rest) := by
  simp only [trimLoop]
  rw [if_pos hgt]

/-- With enough fuel, the trim loop removes some even number of entries
right after the head (never more than the tail holds) and stops at or
below the bound. -/
theorem trimLoop_spec (fuel : Nat) (h0 : ConversationMessage)
    (rest : List ConversationMessage) (hf : rest.length < fuel) :
    ∃ k, trimLoop fuel (h0 :: rest) = h0 :: rest.drop (2 * k)
      ∧ 2 * k ≤ rest.length
      ∧ (h0 :: rest.drop (2 * k)).length ≤ 2 * MAX_HISTORY + 1 := by
  induction fuel generalizing rest with
  | zero => omega
  | succ n ih =>
    by_cases hgt : 2 * MAX_HISTORY + 1 < (h0 :: rest).length
    · match rest with
      | [] => simp [MAX_HISTORY] at hgt
      | [x] => simp [MAX_HISTORY] at hgt
      | a :: b :: rest₂ =>
        rw [trimLoop_step n h0 a b rest₂ hgt]
        have hf₂ : rest₂.length < n := by
          simp only [List.length_cons] at hf
          omega
        obtain ⟨k, hk₁, hk₂, hk₃⟩ := ih rest₂ hf₂
        refine ⟨k + 1, ?_, ?_, ?_⟩
        · rw [show 2 * (k + 1) = 2 * k + 1 + 1 by ring]
          rw [List.drop_succ_cons, List.drop_succ_cons]
          exact hk₁
        · simp only [List.length_cons]
          omega
        · rw [show 2 * (k + 1) = 2 * k + 1 + 1 by ring]
          rw [List.drop_succ_cons, List.drop_succ_cons]
          exact hk₃
    · push_neg at hgt
      refine ⟨0, ?_, by simp, ?_⟩
      · rw [trimLoop_of_le (n + 1) _ hgt]
        simp
      · simpa using hgt
/-- The trim pass on a non-empty history keeps the head, drops some even
number of entries right after it, and lands at or below the bound. -/
theorem trimHistory_cons_spec (h0 : ConversationMessage)
    (rest : List ConversationMessage) :
    ∃ k, trimHistory (h0 :: rest) = h0 :: rest.drop (2 * k)
      ∧ 2 * k ≤ rest.length
      ∧ (trimHistory (h0 :: rest)).length ≤ 2 * MAX_HISTORY + 1 := by
  obtain ⟨k, hk₁, hk₂, hk₃⟩ := trimLoop_spec (h0 :: rest).length h0 rest (by simp)
  exact ⟨k, hk₁, hk₂, by rw [trimHistory, hk₁]; exact hk₃⟩

theorem trimHistory_of_le (h : List ConversationMessage)
    (hle : h.length ≤ 2 * MAX_HISTORY + 1) : trimHistory h = h :=
  trimLoop_of_le h.length h hle

/-- When the history is exactly one entry over the bound, the loop
performs exactly one splice. -/
theorem trimHistory_one_splice (h0 a b : ConversationMessage)
    (rest : List ConversationMessage)
    (hlen : (h0 :: a :: b :: rest).length = 2 * MAX_HISTORY + 2) :
    trimHistory (h0 :: a :: b :: rest) = h0 :: rest := by
  unfold trimHistory
  rw [hlen]
  rw [show 2 * MAX_HISTORY + 2 = (2 * MAX_HISTORY + 1) + 1 by ring]
  rw [trimLoop_step _ h0 a b rest (by rw [hlen]; omega)]
  apply trimLoop_of_le
  simp only [List.length_cons] at hlen ⊢
  omega

/-! ## Helper lemmas: turn pairs and the question loop -/

theorem pairsRange_length (q a : Nat → String) (start n : Nat) :
    (pairsRange q a start n).length = 2 * n := by
  induction n with
  | zero => rfl
  | succ m ih => simp [pairsRange, turnPair, ih]; ring

theorem pairsRange_succ_front (q a : Nat → String) (start n : Nat) :
    pairsRange q a start (n + 1) = turnPair q a start ++ pairsRange q a (start + 1) n := by
  induction n with
  | zero => simp [pairsRange]
  | succ m ih =>
    calc pairsRange q a start (m + 2)
        = pairsRange q a start (m + 1) ++ turnPair q a (start + (m + 1)) := rfl
      _ = (turnPair q a start ++ pairsRange q a (start + 1) m)
            ++ turnPair q a ((start + 1) + m) := by rw [ih]; ring_nf
      _ = turnPair q a start ++ pairsRange q a (start + 1) (m + 1) := by
            rw [List.append_assoc]; rfl

/-- Closed form for the first `MAX_HISTORY` turns: no trimming yet, the
history is the system message followed by all pairs from turn 1. -/
theorem runTurns_closed_le (sp : String) (q a : Nat → String) (n : Nat)
    (hn : n ≤ MAX_HISTORY) :
    runTurns sp q a n = ⟨Role.system, sp⟩ :: pairsRange q a 1 n := by
  induction n with
  | zero => rfl
  | succ m ih =>
    have hm : m ≤ MAX_HISTORY := by omega
    show handleQuestion (q (m + 1)) (some (a (m + 1))) (runTurns sp q a m) = _
    rw [ih hm]
    unfold handleQuestion chatPayload
    rw [show (⟨Role.system, sp⟩ :: pairsRange q a 1 m) ++ [⟨Role.user, q (m + 1)⟩]
        = ⟨Role.system, sp⟩ :: (pairsRange q a 1 m ++ [⟨Role.user, q (m + 1)⟩]) from rfl]
    rw [trimHistory_of_le _ (by
      simp only [List.length_cons, List.length_append, List.length_singleton,
        List.length_nil, pairsRange_length, MAX_HISTORY]
      simp only [MAX_HISTORY] at hn
      omega)]
    show ⟨Role.system, sp⟩ :: (pairsRange q a 1 m ++ [⟨Role.user, q (m + 1)⟩]
        ++ [⟨Role.assistant, a (m + 1)⟩]) = _
    have : pairsRange q a 1 (m + 1) = pairsRange q a 1 m ++ turnPair q a (1 + m) := rfl
    rw [this, show (1 : Nat) + m = m + 1 by ring]
    simp [turnPair]

/-- Closed form past the bound: after `MAX_HISTORY + m` successful turns
the history is the system message followed by the 10 pairs of turns
`1 + m` through `10 + m`. -/
theorem runTurns_closed_gt (sp : String) (q a : Nat → String) (m : Nat) :
    runTurns sp q a (MAX_HISTORY + m) =
      ⟨Role.system, sp⟩ :: pairsRange q a (1 + m) MAX_HISTORY := by
  induction m with
  | zero => simpa using runTurns_closed_le sp q a MAX_HISTORY (le_refl _)
  | succ m ih =>
    show handleQuestion (q (MAX_HISTORY + m + 1)) (some (a (MAX_HISTORY + m + 1)))
        (runTurns sp q a (MAX_HISTORY + m)) = _
    rw [ih]
    unfold handleQuestion chatPayload
    rw [show (MAX_HISTORY : Nat) = 9 + 1 from rfl, pairsRange_succ_front]
    rw [show turnPair q a (1 + m) = [⟨Role.user, q (1 + m)⟩, ⟨Role.assistant, a (1 + m)⟩]
      from rfl]
    rw [show (⟨Role.system, sp⟩ :: ([⟨Role.user, q (1 + m)⟩, ⟨Role.assistant, a (1 + m)⟩]
          ++ pairsRange q a (1 + m + 1) 9)) ++ [⟨Role.user, q (9 + 1 + m + 1)⟩]
        = ⟨Role.system, sp⟩ :: ⟨Role.user, q (1 + m)⟩ :: ⟨Role.assistant, a (1 + m)⟩ ::
          (pairsRange q a (1 + m + 1) 9 ++ [⟨Role.user, q (9 + 1 + m + 1)⟩]) by simp]
    rw [trimHistory_one_splice _ _ _ _ (by
      simp only [List.length_cons, List.length_append, List.length_singleton,
        List.length_nil, pairsRange_length, MAX_HISTORY])]
    show ⟨Role.system, sp⟩ :: (pairsRange q a (1 + m + 1) 9
        ++ [⟨Role.user, q (9 + 1 + m + 1)⟩] ++ [⟨Role.assistant, a (9 + 1 + m + 1)⟩]) = _
    have hpr : pairsRange q a (1 + (m + 1)) (9 + 1)
        = pairsRange q a (1 + (m + 1)) 9 ++ turnPair q a (1 + (m + 1) + 9) := rfl
    rw [hpr]
    rw [show 1 + (m + 1) = 1 + m + 1 by ring]
    rw [show 1 + m + 1 + 9 = 9 + 1 + m + 1 by ring]
    simp [turnPair]

/-! ## Claim theorems C1 and C10 -/

/-- C1. After `N > 10` consecutive successful question/answer turns (no
slash commands) starting from the initial history, the conversation
history is exactly the leading system message followed by the 10 pairs of
turns `N-9` through `N` — 21 entries in all — so the oldest surviving
user message is the one of turn `N-9`, sitting at index 1. -/
theorem repl_history_window (sp : String) (q a : Nat → String) (N : Nat)
    (hN : N > MAX_HISTORY) :
    runTurns sp q a N = ⟨Role.system, sp⟩ :: pairsRange q a (N - 9) MAX_HISTORY
    ∧ (runTurns sp q a N).length = 2 * MAX_HISTORY + 1
    ∧ (runTurns sp q a N)[1]? = some ⟨Role.user, q (N - 9)⟩ := by
  obtain ⟨m, rfl⟩ : ∃ m, N = MAX_HISTORY + m := ⟨N - MAX_HISTORY, by omega⟩
  have h := runTurns_closed_gt sp q a m
  have hidx : MAX_HISTORY + m - 9 = 1 + m := by simp [MAX_HISTORY]; omega
  rw [hidx]
  refine ⟨h, ?_, ?_⟩
  · rw [h]
    simp [pairsRange_length]
  · rw [h, show (MAX_HISTORY : Nat) = 9 + 1 from rfl, pairsRange_succ_front]
    rfl

/-- Witness for C1 at `N = 11`. -/
theorem repl_history_window_witness :
    (11 : Nat) > MAX_HISTORY
    ∧ (runTurns "S" (fun _ => "q") (fun _ => "r") 11).length = 2 * MAX_HISTORY + 1
    ∧ (runTurns "S" (fun _ => "q") (fun _ => "r") 11)[1]? = some ⟨Role.user, "q"⟩ :=
  ⟨by decide,
   (repl_history_window "S" (fun _ => "q") (fun _ => "r") 11 (by decide)).2.1,
   (repl_history_window "S" (fun _ => "q") (fun _ => "r") 11 (by decide)).2.2⟩

/-- C10. Every message list `handleQuestion` passes to the active
provider's `chat` has at most `2 * MAX_HISTORY + 1 = 21` entries, because
the trim loop runs after the new user message is appended and before the
chat call is issued; on success the raw response is appended afterwards. -/
theorem chat_call_payload_bounded (question : String) (outcome : Option String)
    (history : List ConversationMessage) :
    (chatPayload question history).length ≤ 2 * MAX_HISTORY + 1
    ∧ chatPayload question history = trimHistory (history ++ [⟨Role.user, question⟩])
    ∧ handleQuestion question outcome history =
        (match outcome with
         | some response => chatPayload question history ++ [⟨Role.assistant, response⟩]
         | none => chatPayload question history) := by
  refine ⟨?_, rfl, by cases outcome <;> rfl⟩
  unfold chatPayload
  cases history with
  | nil =>
    rw [trimHistory_of_le _ (by simp [MAX_HISTORY])]
    simp [MAX_HISTORY]
  | cons h0 rest =>
    rw [show (h0 :: rest) ++ [⟨Role.user, question⟩]
        = h0 :: (rest ++ [⟨Role.user, question⟩]) from rfl]
    obtain ⟨k, _, _, hk₃⟩ := trimHistory_cons_spec h0 (rest ++ [⟨Role.user, question⟩])
    exact hk₃

/-! ## Helper lemmas: shapes of the REPL step functions -/

/-- One question turn on a history led by the system message keeps the
system message in front; every entry behind it either survives from the
old tail or is the new user/assistant message; and a successful turn
preserves the parity of the tail. -/
theorem handleQuestion_shape (q : String) (o : Option String) (sp : String)
    (rest : List ConversationMessage) :
    ∃ rest', handleQuestion q o (⟨Role.system, sp⟩ :: rest) = ⟨Role.system, sp⟩ :: rest'
      ∧ (∀ m ∈ rest', m ∈ rest ∨ m.role = Role.user ∨ m.role = Role.assistant)
      ∧ (o.isSome = true → rest'.length % 2 = rest.length % 2) := by
  obtain ⟨k, hk₁, hk₂, _⟩ := trimHistory_cons_spec ⟨Role.system, sp⟩
      (rest ++ [⟨Role.user, q⟩])
  have hk₂' : 2 * k ≤ rest.length + 1 := by simpa using hk₂
  have hpay : chatPayload q (⟨Role.system, sp⟩ :: rest)
      = ⟨Role.system, sp⟩ :: List.drop (2 * k) (rest ++ [⟨Role.user, q⟩]) := by
    unfold chatPayload
    rw [show (⟨Role.system, sp⟩ :: rest) ++ [⟨Role.user, q⟩]
        = ⟨Role.system, sp⟩ :: (rest ++ [⟨Role.user, q⟩]) from rfl]
    exact hk₁
  have hmem : ∀ m ∈ List.drop (2 * k) (rest ++ [⟨Role.user, q⟩]),
      m ∈ rest ∨ m.role = Role.user := by
    intro m hm
    have hm' := List.drop_subset _ _ hm
    rcases List.mem_append.mp hm' with h | h
    · exact .inl h
    · right
      rw [List.mem_singleton.mp h]
  cases o with
  | none =>
    refine ⟨List.drop (2 * k) (rest ++ [⟨Role.user, q⟩]), ?_, ?_, by simp⟩
    · show chatPayload q _ = _
      exact hpay
    intro m hm
    rcases hmem m hm with h | h
    · exact .inl h
    · exact .inr (.inl h)
  | some r =>
    refine ⟨List.drop (2 * k) (rest ++ [⟨Role.user, q⟩]) ++ [⟨Role.assistant, r⟩],
      ?_, ?_, ?_⟩
    · show chatPayload q _ ++ [⟨Role.assistant, r⟩] = _
      rw [hpay]
      rfl
    · intro m hm
      rcases List.mem_append.mp hm with h | h
      · rcases hmem m h with h' | h'
        · exact .inl h'
        · exact .inr (.inl h')
      · right; right
        rw [List.mem_singleton.mp h]
    · intro _
      simp only [List.length_append, List.length_drop, List.length_singleton]
      omega

/-- One question turn on a system-led history with a system-free tail
yields a system-led history with a system-free tail, and a successful
turn keeps the tail's length even. -/
theorem handleQuestion_inv (q : String) (o : Option String) (sp : String)
    (rest : List ConversationMessage)
    (hns : ∀ m ∈ rest, m.role ≠ Role.system) :
    ∃ rest', handleQuestion q o (⟨Role.system, sp⟩ :: rest) = ⟨Role.system, sp⟩ :: rest'
      ∧ (∀ m ∈ rest', m.role ≠ Role.system)
      ∧ (o.isSome = true → rest.length % 2 = 0 → rest'.length % 2 = 0) := by
  obtain ⟨rest', h₁, h₂, h₃⟩ := handleQuestion_shape q o sp rest
  refine ⟨rest', h₁, ?_, ?_⟩
  · intro m hm
    rcases h₂ m hm with h | h | h
    · exact hns m h
    · rw [h]; decide
    · rw [h]; decide
  · intro ho he
    rw [h₃ ho, he]

/-- What `handleCommand` does to the conversation history, as a single
equation: `/term` with arguments runs a question turn, `/clear` truncates
to the system message, every other command leaves the history alone. -/
theorem handleCommand_history_eq (env : Env) (command : String) (o : Option String)
    (s : ReplState) :
    (handleCommand env command o s).history =
      (if jsToLower ((jsSplitWs (jsSlice1 command)).headD "") = "term" then
         match (jsSplitWs (jsSlice1 command)).tail with
         | [] => s.history
         | _ :: _ =>
             handleQuestion (jsJoinSpace ((jsSplitWs (jsSlice1 command)).tail)) o
               s.history
       else if jsToLower ((jsSplitWs (jsSlice1 command)).headD "") = "clear" then
         s.history.take 1
       else s.history) := by
  simp only [handleCommand]
  split_ifs <;> (repeat' split) <;> first | rfl | simp_all

/-- One processed input line keeps the system message in front of the
history, keeps the tail free of system messages, and — when the line's
chat call (if any) succeeds — keeps the tail's length even. -/
theorem handleLine_inv (env : Env) (raw : String) (o : Option String) (s : ReplState)
    (sp : String) (rest : List ConversationMessage)
    (hs : s.history = ⟨Role.system, sp⟩ :: rest)
    (hns : ∀ m ∈ rest, m.role ≠ Role.system) :
    ∃ rest', (handleLine env raw o s).history = ⟨Role.system, sp⟩ :: rest'
      ∧ (∀ m ∈ rest', m.role ≠ Role.system)
      ∧ (o.isSome = true → rest.length % 2 = 0 → rest'.length % 2 = 0) := by
  by_cases he : jsTrim raw = ""
  · refine ⟨rest, ?_, hns, fun _ h => h⟩
    simp [handleLine, he, hs]
  · by_cases hsl : jsStartsWithSlash (jsTrim raw) = true
    · have heq : handleLine env raw o s = handleCommand env (jsTrim raw) o s := by
        simp [handleLine, he, hsl]
      have hcmd := handleCommand_history_eq env (jsTrim raw) o s
      rw [heq]
      by_cases hterm : jsToLower ((jsSplitWs (jsSlice1 (jsTrim raw))).headD "") = "term"
      · rw [if_pos hterm] at hcmd
        cases htail : (jsSplitWs (jsSlice1 (jsTrim raw))).tail with
        | nil =>
          simp only [htail] at hcmd
          exact ⟨rest, by rw [hcmd, hs], hns, fun _ h => h⟩
        | cons x xs =>
          simp only [htail] at hcmd
          rw [hs] at hcmd
          obtain ⟨rest', h₁, h₂, h₃⟩ := handleQuestion_inv (jsJoinSpace (x :: xs)) o sp
            rest hns
          exact ⟨rest', by rw [hcmd, h₁], h₂, h₃⟩
      · rw [if_neg hterm] at hcmd
        by_cases hclear :
            jsToLower ((jsSplitWs (jsSlice1 (jsTrim raw))).headD "") = "clear"
        · rw [if_pos hclear] at hcmd
          refine ⟨[], ?_, by simp, fun _ _ => by simp⟩
          rw [hcmd, hs]
          rfl
        · rw [if_neg hclear] at hcmd
          exact ⟨rest, by rw [hcmd, hs], hns, fun _ h => h⟩
    · have heq : (handleLine env raw o s).history
          = handleQuestion (jsTrim raw) o s.history := by
        simp [handleLine, he, hsl]
      rw [heq, hs]
      exact handleQuestion_inv (jsTrim raw) o sp rest hns

/-- Running any whole input sequence preserves the system-led history
shape, and keeps the tail even when every chat call succeeded. -/
theorem runRepl_inv (env : Env) (sp : String) (trace : List (String × Option String))
    (s : ReplState) (rest : List ConversationMessage)
    (hs : s.history = ⟨Role.system, sp⟩ :: rest)
    (hns : ∀ m ∈ rest, m.role ≠ Role.system) :
    ∃ rest', (runRepl env trace s).history = ⟨Role.system, sp⟩ :: rest'
      ∧ (∀ m ∈ rest', m.role ≠ Role.system)
      ∧ ((∀ p ∈ trace, p.2.isSome = true) → rest.length % 2 = 0 →
          rest'.length % 2 = 0) := by
  induction trace generalizing s rest with
  | nil => exact ⟨rest, hs, hns, fun _ h => h⟩
  | cons p tr ih =>
    obtain ⟨rest₁, h₁, h₂, h₃⟩ := handleLine_inv env p.1 p.2 s sp rest hs hns
    obtain ⟨rest', g₁, g₂, g₃⟩ := ih (handleLine env p.1 p.2 s) rest₁ h₁ h₂
    refine ⟨rest', g₁, g₂, ?_⟩
    intro hall heven
    exact g₃ (fun p' hp' => hall p' (List.mem_cons_of_mem _ hp'))
      (h₃ (hall p (List.mem_cons_self _ _)) heven)

/-! ## Claim theorems C4 -/

/-- C4 counterexample to the claim as stated: a single failed chat turn
leaves the lone user message in the history, so the number of non-system
entries is 1 — odd, not even — in a reachable state. -/
theorem repl_odd_history_counterexample :
    (runRepl [] [("boom", none)] sampleInitState).history
      = [⟨Role.system, "S"⟩, ⟨Role.user, "boom"⟩]
    ∧ (runRepl [] [("boom", none)] sampleInitState).history.tail.length % 2 = 1 := by
  exact ⟨by decide, by decide⟩

/-- C4 (amended). In every reachable REPL session state the history
retains the leading system message (never dropped by trimming or by
`/clear`) and no other entry has the system role; when every chat call of
the run succeeded, the number of non-system entries is even. (A failed
chat turn leaves its lone user message behind, making the count odd.) -/
theorem repl_history_system_invariant (env : Env) (sysPrompt : String) (pt : PType)
    (pc : ProviderConfig) (cfg : TermwhatConfig)
    (trace : List (String × Option String)) :
    ∃ rest, (runRepl env trace (initialReplState sysPrompt pt pc cfg)).history
        = ⟨Role.system, sysPrompt⟩ :: rest
      ∧ (∀ m ∈ rest, m.role ≠ Role.system)
      ∧ ((∀ p ∈ trace, p.2.isSome = true) → rest.length % 2 = 0) := by
  obtain ⟨rest', h₁, h₂, h₃⟩ := runRepl_inv env sysPrompt trace
    (initialReplState sysPrompt pt pc cfg) [] rfl (by simp)
  exact ⟨rest', h₁, h₂, fun hall => h₃ hall rfl⟩

/-- Witness for C4 on a concrete all-successful run containing a question
turn, a `/clear`, and another question turn. -/
theorem repl_history_system_invariant_witness :
    (runRepl [] [("hello", some "w"), ("/clear", some "x"), ("again", some "y")]
        sampleInitState).history.head? = some ⟨Role.system, "S"⟩
    ∧ (runRepl [] [("hello", some "w"), ("/clear", some "x"), ("again", some "y")]
        sampleInitState).history.tail.length % 2 = 0 := by
  obtain ⟨rest, h₁, _, h₃⟩ := repl_history_system_invariant [] "S" PType.ollama
    sampleOllamaConfig sampleAppConfig
    [("hello", some "w"), ("/clear", some "x"), ("again", some "y")]
  have heven := h₃ (by decide)
  constructor
  · rw [show sampleInitState = initialReplState "S" PType.ollama sampleOllamaConfig
        sampleAppConfig from rfl, h₁]
    rfl
  · rw [show sampleInitState = initialReplState "S" PType.ollama sampleOllamaConfig
        sampleAppConfig from rfl, h₁]
    simpa using heven

/-! ## Claim theorems C5 -/

/-- C5 counterexample to the claim as stated: the slash command
`/term hi` DOES append to the conversation history — it runs a question
turn, adding the user message and, on success, the assistant response. -/
theorem slash_term_appends_counterexample :
    jsStartsWithSlash (jsTrim "/term hi") = true
    ∧ (handleLine [] "/term hi" (some "resp") sampleInitState).history
      = [⟨Role.system, "S"⟩, ⟨Role.user, "hi"⟩, ⟨Role.assistant, "resp"⟩]
    ∧ sampleInitState.history = [⟨Role.system, "S"⟩] := by
  exact ⟨by decide, by decide, by decide⟩

/-- C5 (amended). An empty trimmed line changes nothing. A slash-prefixed
line is dispatched as a command, and every command except `/term`-with-
arguments leaves the history a prefix of what it was (unchanged, or
truncated to the system message by `/clear`) — it never appends; `/term`
with arguments runs a question turn on the joined arguments. A non-empty
line not starting with `/` is appended as a `user` message, triggers the
chat call on the trimmed-and-appended history, and on success the raw
response is appended as an `assistant` message. -/
theorem repl_line_dispatch (env : Env) (s : ReplState) (raw : String)
    (o : Option String) :
    (jsTrim raw = "" → handleLine env raw o s = s)
    ∧ (jsStartsWithSlash (jsTrim raw) = true →
        (jsToLower ((jsSplitWs (jsSlice1 (jsTrim raw))).headD "") ≠ "term"
          ∨ (jsSplitWs (jsSlice1 (jsTrim raw))).tail = []) →
        ∃ n, (handleLine env raw o s).history = s.history.take n)
    ∧ (jsStartsWithSlash (jsTrim raw) = true →
        jsToLower ((jsSplitWs (jsSlice1 (jsTrim raw))).headD "") = "term" →
        (jsSplitWs (jsSlice1 (jsTrim raw))).tail ≠ [] →
        (handleLine env raw o s).history =
          handleQuestion (jsJoinSpace ((jsSplitWs (jsSlice1 (jsTrim raw))).tail)) o
            s.history)
    ∧ (jsTrim raw ≠ "" → jsStartsWithSlash (jsTrim raw) = false →
        (handleLine env raw o s).history =
          (match o with
           | some r => trimHistory (s.history ++ [⟨Role.user, jsTrim raw⟩])
               ++ [⟨Role.assistant, r⟩]
           | none => trimHistory (s.history ++ [⟨Role.user, jsTrim raw⟩]))) := by
  refine ⟨?_, ?_, ?_, ?_⟩
  · intro he
    simp [handleLine, he]
  · intro hsl hcond
    have hne : jsTrim raw ≠ "" := by
      intro h
      rw [h] at hsl
      exact absurd hsl (by decide)
    have heq : handleLine env raw o s = handleCommand env (jsTrim raw) o s := by
      simp [handleLine, hne, hsl]
    have hcmd := handleCommand_history_eq env (jsTrim raw) o s
    rw [heq]
    rcases hcond with hc | hc
    · rw [if_neg hc] at hcmd
      by_cases hclear :
          jsToLower ((jsSplitWs (jsSlice1 (jsTrim raw))).headD "") = "clear"
      · rw [if_pos hclear] at hcmd
        exact ⟨1, hcmd⟩
      · rw [if_neg hclear] at hcmd
        exact ⟨s.history.length, by rw [hcmd, List.take_length]⟩
    · by_cases hterm :
          jsToLower ((jsSplitWs (jsSlice1 (jsTrim raw))).headD "") = "term"
      · rw [if_pos hterm] at hcmd
        simp only [hc] at hcmd
        exact ⟨s.history.length, by rw [hcmd, List.take_length]⟩
      · rw [if_neg hterm] at hcmd
        by_cases hclear :
            jsToLower ((jsSplitWs (jsSlice1 (jsTrim raw))).headD "") = "clear"
        · rw [if_pos hclear] at hcmd
          exact ⟨1, hcmd⟩
        · rw [if_neg hclear] at hcmd
          exact ⟨s.history.length, by rw [hcmd, List.take_length]⟩
  · intro hsl hterm htail
    have hne : jsTrim raw ≠ "" := by
      intro h
      rw [h] at hsl
      exact absurd hsl (by decide)
    have heq : handleLine env raw o s = handleCommand env (jsTrim raw) o s := by
      simp [handleLine, hne, hsl]
    have hcmd := handleCommand_history_eq env (jsTrim raw) o s
    rw [if_pos hterm] at hcmd
    rw [heq]
    cases hx : (jsSplitWs (jsSlice1 (jsTrim raw))).tail with
    | nil => exact absurd hx htail
    | cons x xs =>
      simp only [hx] at hcmd
      rw [hcmd]
  · intro hne hnsl
    have heq : (handleLine env raw o s).history
        = handleQuestion (jsTrim raw) o s.history := by
      simp [handleLine, hne, hnsl]
    rw [heq]
    cases o <;> rfl

/-- Witness for C5: the pure-print command `/help` leaves the history a
prefix of itself. -/
theorem repl_line_dispatch_witness :
    ∃ n, (handleLine [] "/help" (some "x") sampleInitState).history
      = sampleInitState.history.take n :=
  (repl_line_dispatch [] sampleInitState "/help" (some "x")).2.1
    (by decide) (.inl (by decide))

/-! ## Claim theorems C6 -/

/-- C6. A successful `/provider <name>` switch — the name parses as the
single argument, is present in the in-memory configuration, and the
factory constructs the new adapter — changes exactly the live provider
reference (kind and stored configuration), the current-provider name in
the session state, and the `currentProvider` of the in-memory
configuration, which is then persisted; the conversation history (and
everything else) is left unchanged verbatim, so the next chat call sends
the same history to the newly named adapter. -/
theorem provider_switch_effects (env : Env) (s : ReplState) (raw name : String)
    (o : Option String) (pc : ProviderConfig) (handle : ProviderHandle)
    (hne : jsTrim raw ≠ "")
    (hslash : jsStartsWithSlash (jsTrim raw) = true)
    (hparse : jsSplitWs (jsSlice1 (jsTrim raw)) = ["provider", name])
    (hnl : name ≠ "list")
    (hlookup : s.config.providers.lookup name = some pc)
    (hcreate : AIProviderFactory.create env pc = .ok handle) :
    handleLine env raw o s =
      { s with providerType := handle.ptype, providerCfg := handle.cfg,
               currentProviderName := name,
               config := { s.config with currentProvider := name },
               saved := s.saved ++ [{ s.config with currentProvider := name }] }
    ∧ (handleLine env raw o s).history = s.history := by
  have h1 : handleLine env raw o s =
      { s with providerType := handle.ptype, providerCfg := handle.cfg,
               currentProviderName := name,
               config := { s.config with currentProvider := name },
               saved := s.saved ++ [{ s.config with currentProvider := name }] } := by
    have heq : handleLine env raw o s = handleCommand env (jsTrim raw) o s := by
      simp [handleLine, hne, hslash]
    rw [heq]
    simp only [handleCommand, hparse, List.headD_cons, List.tail_cons]
    have hlow : jsToLower "provider" = "provider" := by decide
    rw [hlow]
    rw [if_neg (by decide : ¬("provider" = "term"))]
    rw [if_pos rfl]
    rw [if_neg hnl]
    simp only [hlookup, hcreate]
  exact ⟨h1, by rw [h1]⟩

/-- Witness for C6: switching from the local entry to the cloud entry of
`cloudAppConfig` mid-session, with the cloud credential present. -/
theorem provider_switch_effects_witness :
    handleLine [("TERMWHAT_ANTHROPIC_API_KEY", "k")] "/provider cloud" none
        midSessionState =
      { midSessionState with
          providerType := PType.anthropic,
          providerCfg := .anthropic "claude-3-5-sonnet-20241022" 60000,
          currentProviderName := "cloud",
          config := { midSessionState.config with currentProvider := "cloud" },
          saved := midSessionState.saved
            ++ [{ midSessionState.config with currentProvider := "cloud" }] }
    ∧ (handleLine [("TERMWHAT_ANTHROPIC_API_KEY", "k")] "/provider cloud" none
        midSessionState).history = midSessionState.history :=
  provider_switch_effects [("TERMWHAT_ANTHROPIC_API_KEY", "k")] midSessionState
    "/provider cloud" "cloud" none (.anthropic "claude-3-5-sonnet-20241022" 60000)
    ⟨PType.anthropic, .anthropic "claude-3-5-sonnet-20241022" 60000⟩
    (by decide) (by decide) (by decide) (by decide) (by decide) (by rfl)
